import Mathlib

/-!
Verification development for the eBatcher frontend encryption/marshalling layer.

The definitions below are shallow embeddings of the TypeScript sources:
  - packages/fhevm-sdk/src/react/useFHEEncryption.ts
      (getEncryptionMethod, toHex, buildParamsFromAbi, encryptWith)
  - the eBatcher hook (getEncryptionMethodForFunction, batchSendTokenSameAmount,
      batchSendTokenDifferentAmounts)
  - packages/nextjs/hooks/ebatcher-example/useTokenBalance7984.tsx
      (getTokenBalance, decryptBalance)
  - packages/nextjs/hooks/eweth-example/useEWETHWagmi.tsx (completeWithdrawal)

JS byte arrays (Uint8Array) are modelled as List Nat, JS bigint as Nat,
possibly-undefined values as Option, and thrown exceptions as Except errors.
External collaborators (the encryption provider, the chain, the wagmi signer)
are passed in as explicit environment records; the sequence of external calls a
workflow performs is returned as an explicit trace list.
-/

/-- Hex digit character for a value below 16 (lowercase, as produced by
Buffer.toString("hex")). -/
def hexDigit (n : Nat) : Char :=
  if n < 10 then Char.ofNat (48 + n) else Char.ofNat (87 + n)

/-- Two lowercase hex digits for one byte. -/
def byteToHex (b : Nat) : String :=
  let v := b % 256
  String.mk [hexDigit (v / 16), hexDigit (v % 16)]

/-- Embedding of toHex on the Uint8Array branch:
"0x" + Buffer.from(value).toString("hex"). The string branch of toHex is not
exercised by any call site modelled here (all call sites pass Uint8Array). -/
def toHex (bytes : List Nat) : String :=
  "0x" ++ String.join (bytes.map byteToHex)

/-- EncryptResult from useFHEEncryption.ts: ciphertext handles plus the single
shared input proof of one encryption session. -/
structure EncryptResult where
  handles : List (List Nat)
  inputProof : List Nat
deriving DecidableEq, Repr

/-- Embedding of getEncryptionMethod (useFHEEncryption.ts lines 14-36): the
switch over the external encrypted marker strings, with default "add64". -/
def getEncryptionMethod (internalType : String) : String :=
  if internalType = "externalEbool" then "addBool"
  else if internalType = "externalEuint8" then "add8"
  else if internalType = "externalEuint16" then "add16"
  else if internalType = "externalEuint32" then "add32"
  else if internalType = "externalEuint64" then "add64"
  else if internalType = "externalEuint128" then "add128"
  else if internalType = "externalEuint256" then "add256"
  else if internalType = "externalEaddress" then "addAddress"
  else "add64"

/-- One declared parameter of an ABI function fragment. `internalType` is
optional, as in the JSON ABI. -/
structure AbiInput where
  name : String
  ty : String
  internalType : Option String
deriving DecidableEq, Repr

/-- One ABI item (only the fields the code inspects). -/
structure AbiItem where
  ty : String
  name : String
  inputs : List AbiInput
deriving DecidableEq, Repr

/-- A value in a contract-call argument list. -/
inductive TxParam where
  | str (s : String)
  | num (n : Nat)
  | strList (l : List String)
  | bytesVal (b : List Nat)
deriving DecidableEq, Repr

/-- Failures of buildParamsFromAbi. `functionAbiNotFound` and
`missingParameter` are the two explicit throw sites; `typeError` models the
JS TypeError/SyntaxError raised when an encrypted slot is reached with no
handle left (toHex/BigInt applied to undefined) or when the uint256 branch
coerces a multi-byte Uint8Array through BigInt. -/
inductive BuildError where
  | functionAbiNotFound (functionName : String)
  | missingParameter (paramName paramType functionName : String) (given : Nat)
  | typeError
deriving DecidableEq, Repr

/-- The e.message text of a BuildError, as used by the catch blocks. -/
def BuildError.message : BuildError → String
  | .functionAbiNotFound functionName => "Function ABI not found for " ++ functionName
  | .missingParameter paramName paramType functionName given =>
      "Missing parameter for " ++ paramName ++ " (type: " ++ paramType ++
      ") in function " ++ functionName ++ ". Expected more than " ++
      toString given ++ " additional params."
  | .typeError => "TypeError"

/-- Character-list version of the starts-with test (structurally recursive,
so it evaluates inside the kernel). -/
def listStartsWith : List Char → List Char → Bool
  | _, [] => true
  | [], _ :: _ => false
  | a :: as, b :: bs => a == b && listStartsWith as bs

/-- String starts-with test over the underlying character lists. -/
def strStartsWith (s p : String) : Bool :=
  listStartsWith s.data p.data

/-- A parameter is encrypted when input.internalType starts with "external"
(optional chaining: a missing internalType is falsy). -/
def isEncryptedInput (inp : AbiInput) : Bool :=
  match inp.internalType with
  | some s => strStartsWith s "external"
  | none => false

/-- A parameter is the input proof when its type is "bytes" and its name is
"inputProof" or "proof". -/
def isInputProofInput (inp : AbiInput) : Bool :=
  inp.ty = "bytes" && (inp.name = "inputProof" || inp.name = "proof")

/-- The comma-joined decimal string a Uint8Array coerces to in JS
(Array.prototype.toString). -/
def uint8ArrayToString (l : List Nat) : String :=
  String.intercalate "," (l.map toString)

/-- Decimal digit value of a character, none for a non-digit. -/
def charDigit? (c : Char) : Option Nat :=
  if 48 ≤ c.toNat ∧ c.toNat ≤ 57 then some (c.toNat - 48) else none

/-- Parse a non-empty all-digit character list as a decimal number. -/
def parseDecimal : List Char → Nat → Option Nat
  | [], acc => some acc
  | c :: cs, acc =>
    match charDigit? c with
    | some d => parseDecimal cs (acc * 10 + d)
    | none => none

/-- JS StringToBigInt restricted to the strings produced by
uint8ArrayToString: the empty string is 0, a plain decimal parses, and
anything else (in particular a string containing a comma) throws. -/
def stringToBigInt (s : String) : Option Nat :=
  match s.data with
  | [] => some 0
  | cs => parseDecimal cs 0

/-- Encoding of one encrypted parameter (the switch on input.type inside
buildParamsFromAbi): bytes32/bytes push toHex(handle); uint256 pushes
BigInt(handle coerced to string), which only succeeds when the coerced
string parses; any other type warns and pushes toHex(handle). -/
def encodeEncryptedParam (ty : String) (raw : List Nat) : Option TxParam :=
  if ty = "bytes32" ∨ ty = "bytes" then some (TxParam.str (toHex raw))
  else if ty = "uint256" then (stringToBigInt (uint8ArrayToString raw)).map TxParam.num
  else some (TxParam.str (toHex raw))

/-- The forEach body of buildParamsFromAbi as a recursion over the declared
inputs, carrying the two cursors encryptedParamIndex and
additionalParamIndex. -/
def buildParamsLoop (enc : EncryptResult) (functionName : String)
    (additionalParams : List TxParam) :
    List AbiInput → Nat → Nat → Except BuildError (List TxParam)
  | [], _, _ => Except.ok []
  | inp :: rest, encryptedParamIndex, additionalParamIndex =>
    if isEncryptedInput inp then
      match enc.handles[encryptedParamIndex]? with
      | none => Except.error BuildError.typeError
      | some raw =>
        match encodeEncryptedParam inp.ty raw with
        | none => Except.error BuildError.typeError
        | some v =>
          (buildParamsLoop enc functionName additionalParams rest
            (encryptedParamIndex + 1) additionalParamIndex).map (fun l => v :: l)
    else if isInputProofInput inp then
      (buildParamsLoop enc functionName additionalParams rest
        encryptedParamIndex additionalParamIndex).map
          (fun l => TxParam.str (toHex enc.inputProof) :: l)
    else
      match additionalParams[additionalParamIndex]? with
      | some v =>
        (buildParamsLoop enc functionName additionalParams rest
          encryptedParamIndex (additionalParamIndex + 1)).map (fun l => v :: l)
      | none =>
        Except.error (BuildError.missingParameter inp.name inp.ty functionName
          additionalParams.length)

/-- Embedding of buildParamsFromAbi (useFHEEncryption.ts lines 49-102). -/
def buildParamsFromAbi (enc : EncryptResult) (abi : List AbiItem)
    (functionName : String) (additionalParams : List TxParam) :
    Except BuildError (List TxParam) :=
  match abi.find? (fun item => item.ty == "function" && item.name == functionName) with
  | none => Except.error (BuildError.functionAbiNotFound functionName)
  | some fn => buildParamsLoop enc functionName additionalParams fn.inputs 0 0

/-- Number of encrypted slots among the declared inputs. -/
def countEncrypted (inputs : List AbiInput) : Nat :=
  inputs.countP (fun i => isEncryptedInput i)

/-- Number of plain slots (neither encrypted nor the input proof). -/
def countPlainSlots (inputs : List AbiInput) : Nat :=
  inputs.countP (fun i => !isEncryptedInput i && !isInputProofInput i)

/-- Number of proof slots (not encrypted, proof-shaped). -/
def countProofSlots (inputs : List AbiInput) : Nat :=
  inputs.countP (fun i => !isEncryptedInput i && isInputProofInput i)

/-- Argument list described by the spec of assemble(): walking the declared
parameters in order, encrypted slots consume the handles in order (as hex
byte references), the proof slot receives the single shared proof, and plain
slots consume the caller-supplied extra values in order. Used as the
reference result the code is compared against. -/
def assembleSpec (handles : List (List Nat)) (inputProof : List Nat)
    (additionalParams : List TxParam) :
    List AbiInput → Nat → Nat → List TxParam
  | [], _, _ => []
  | inp :: rest, encIdx, addIdx =>
    if isEncryptedInput inp then
      TxParam.str (toHex (handles.getD encIdx [])) ::
        assembleSpec handles inputProof additionalParams rest (encIdx + 1) addIdx
    else if isInputProofInput inp then
      TxParam.str (toHex inputProof) ::
        assembleSpec handles inputProof additionalParams rest encIdx addIdx
    else
      additionalParams.getD addIdx (TxParam.str "") ::
        assembleSpec handles inputProof additionalParams rest encIdx (addIdx + 1)

/-- External calls a hook performs, recorded as an explicit trace:
encryption-provider session operations, transaction submission and
confirmation waits, read calls, and decryption-provider round trips. -/
inductive ExtCall where
  | createSession (contract user : String)
  | queue (method : String) (value : Nat)
  | resolve
  | submit (functionName : String) (args : List TxParam)
  | waitConfirm (confirmations : Nat)
  | getCode (address : String)
  | readBalance (token user : String)
  | decryptTrigger
  | publicDecrypt (handles : List String)
deriving DecidableEq, Repr

/-- True for the two decryption-coordinator calls. -/
def ExtCall.isDecryptionCall : ExtCall → Bool
  | .decryptTrigger => true
  | .publicDecrypt _ => true
  | _ => false

/-- True for an encryption-provider session creation. -/
def ExtCall.isCreateSession : ExtCall → Bool
  | .createSession _ _ => true
  | _ => false

/-- True for an encryption-provider batch resolution (input.encrypt()). -/
def ExtCall.isResolve : ExtCall → Bool
  | .resolve => true
  | _ => false

/-- The three inputs of useFHEEncryption: the FHEVM provider instance, the
ethers signer (represented by the address getAddress resolves to), and the
target contract address; each may be missing. -/
structure FHEEnv where
  fhevmInstance : Option Unit
  ethersSigner : Option String
  contractAddress : Option String

/-- Embedding of encryptWith (useFHEEncryption.ts lines 116-127). The builder
callback is represented by the ordered list of (method, value) pairs it
queues; the external provider is a function from (contract, user, queued
entries) to the resolved batch. Returns the batch (or none) together with
the trace of provider calls performed. -/
def encryptWith (env : FHEEnv)
    (provider : String → String → List (String × Nat) → EncryptResult)
    (buildOps : List (String × Nat)) : Option EncryptResult × List ExtCall :=
  match env.fhevmInstance, env.ethersSigner, env.contractAddress with
  | some _, some user, some contractAddr =>
    (some (provider contractAddr user buildOps),
     ExtCall.createSession contractAddr user ::
       (buildOps.map (fun p => ExtCall.queue p.1 p.2) ++ [ExtCall.resolve]))
  | _, _, _ => (none, [])

/-- Embedding of getEncryptionMethodForFunction from the eBatcher hook
(lines 86-112): resolves the builder method for the amount parameter of the
named function, or an error string. Mirrors the negative-index lookup
(inputs[-1] is undefined in JS) and the falsiness of an empty
internalType. -/
def getEncryptionMethodForFunction (abi : List AbiItem) (functionName : String) :
    Option String × Option String :=
  match abi.find? (fun item => item.ty == "function" && item.name == functionName) with
  | none => (none, some ("Function ABI not found for " ++ functionName))
  | some functionAbi =>
    if functionAbi.ty ≠ "function" then
      (none, some ("Not a function: " ++ functionName))
    else if functionAbi.inputs.length = 0 then
      (none, some ("No inputs found for " ++ functionName))
    else
      let amountParamIndex : Int :=
        if functionName = "batchSendTokenSameAmount" ∨ functionName = "tokenRescue"
        then 2 else -1
      if amountParamIndex = -1 ∧ functionName = "batchSendTokenDifferentAmounts" then
        (some "euint64", none)
      else
        match (if 0 ≤ amountParamIndex then functionAbi.inputs[amountParamIndex.toNat]? else none) with
        | none => (none, some ("Amount parameter not found for " ++ functionName))
        | some amountInput =>
          match amountInput.internalType with
          | none => (none, some ("Amount parameter not found for " ++ functionName))
          | some it =>
            if it = "" then (none, some ("Amount parameter not found for " ++ functionName))
            else (some (getEncryptionMethod it), none)

/-- A submitted transaction. -/
structure Tx where
  hash : String
deriving DecidableEq, Repr

/-- A confirmed transaction receipt. -/
structure Receipt where
  hash : String
  blockNumber : Nat
deriving DecidableEq, Repr

/-- Environment of the eBatcher hook: the wagmi/ethers context plus the
behaviour of the external collaborators (encryption provider, contract
submission, confirmation wait). `contractInfo` is the deployed contract
record (address, abi); `maxBatchSizeData` is the raw MAX_BATCH_SIZE read
result (none when unreadable). -/
structure BatcherEnv where
  fhevmInstance : Option Unit
  ethersSigner : Option String
  readonlyProvider : Option Unit
  contractInfo : Option (String × List AbiItem)
  maxBatchSizeData : Option Nat
  provider : String → String → List (String × Nat) → EncryptResult
  submitOutcome : String → List TxParam → Except String Tx
  waitOutcome : Tx → Except String Receipt
  chainId : Option Nat

/-- hasContract of the hook. -/
def BatcherEnv.hasContract (env : BatcherEnv) : Bool :=
  env.contractInfo.isSome

/-- canInteract of the hook: contract info, instance and signer all present
and not currently processing. -/
def BatcherEnv.canInteract (env : BatcherEnv) (isProcessing : Bool) : Bool :=
  env.hasContract && env.fhevmInstance.isSome && env.ethersSigner.isSome && !isProcessing

/-- maxBatchSize: Number(data) when the read produced a truthy value (a zero
read is falsy in JS), 10 otherwise. -/
def BatcherEnv.maxBatchSize (env : BatcherEnv) : Nat :=
  match env.maxBatchSizeData with
  | some v => if v ≠ 0 then v else 10
  | none => 10

/-- The FHEEnv the hook passes to useFHEEncryption (contractAddress is the
deployed eBatcher address). -/
def BatcherEnv.fheEnv (env : BatcherEnv) : FHEEnv :=
  { fhevmInstance := env.fhevmInstance
    ethersSigner := env.ethersSigner
    contractAddress := env.contractInfo.map (fun c => c.1) }

/-- getContract("write"): requires the contract info and the signer. -/
def BatcherEnv.writeContract (env : BatcherEnv) : Option (String × List AbiItem) :=
  match env.contractInfo, env.ethersSigner with
  | some info, some _ => some info
  | _, _ => none

/-- Observable state of the eBatcher hook (message and the busy flag). -/
structure BatcherState where
  message : String
  isProcessing : Bool
deriving DecidableEq, Repr

/-- Etherscan link construction shared by the success messages. -/
def explorerUrl (chainId : Option Nat) (hash : String) : String :=
  if chainId = some 11155111 then "https://sepolia.etherscan.io/tx/" ++ hash
  else "https://etherscan.io/tx/" ++ hash

/-- The try block of batchSendTokenSameAmount (lines 132-169 of the eBatcher
hook): classify, encrypt, assemble, submit, wait; returns the message in
force when the block exits together with the external-call trace. -/
def sameAmountTry (env : BatcherEnv) (tokenAddress : String)
    (recipients : List String) (amount : Nat) : String × List ExtCall :=
  match getEncryptionMethodForFunction
      ((env.contractInfo.map (fun c => c.2)).getD []) "batchSendTokenSameAmount" with
  | (none, err) => (err.getD "Encryption method not found", [])
  | (some method, _) =>
    match encryptWith env.fheEnv env.provider [(method, amount)] with
    | (none, calls) => ("Encryption failed", calls)
    | (some enc, calls) =>
      match env.writeContract with
      | none => ("Contract info or signer not available", calls)
      | some info =>
        match buildParamsFromAbi enc info.2 "batchSendTokenSameAmount"
            [TxParam.str tokenAddress, TxParam.strList recipients] with
        | Except.error e => ("Batch transfer failed: " ++ e.message, calls)
        | Except.ok params =>
          let calls2 := calls ++ [ExtCall.submit "batchSendTokenSameAmount" params]
          match env.submitOutcome "batchSendTokenSameAmount" params with
          | Except.error emsg => ("Batch transfer failed: " ++ emsg, calls2)
          | Except.ok tx =>
            let calls3 := calls2 ++ [ExtCall.waitConfirm 2]
            match env.waitOutcome tx with
            | Except.error emsg => ("Batch transfer failed: " ++ emsg, calls3)
            | Except.ok receipt =>
              ("✅ Confirmed! Sent " ++ toString amount ++ " tokens to " ++
               toString recipients.length ++ " recipients.\n\nTransaction: " ++
               receipt.hash ++ "\nBlock: " ++ toString receipt.blockNumber ++
               "\nConfirmations: 2+\nExplorer: " ++ explorerUrl env.chainId tx.hash,
               calls3)

/-- Embedding of batchSendTokenSameAmount (eBatcher hook lines 117-175):
entry guard, shape validation, then the try/finally body; the finally clause
clears the busy flag on every accepted path. -/
def batchSendTokenSameAmount (env : BatcherEnv) (st : BatcherState)
    (tokenAddress : String) (recipients : List String) (amount : Nat) :
    BatcherState × List ExtCall :=
  if st.isProcessing || !(env.canInteract st.isProcessing) then (st, [])
  else if recipients.length = 0 then
    ({ st with message := "At least one recipient is required" }, [])
  else if recipients.length > env.maxBatchSize then
    ({ st with message := "Maximum batch size is " ++ toString env.maxBatchSize }, [])
  else
    let r := sameAmountTry env tokenAddress recipients amount
    ({ message := r.1, isProcessing := false }, r.2)

/-- The try block of batchSendTokenDifferentAmounts (lines 199-236): queue
every amount with add64 in one session, resolve once, then pass all handles
and the single proof into the array-typed call. -/
def differentAmountsTry (env : BatcherEnv) (tokenAddress : String)
    (recipients : List String) (amounts : List Nat) : String × List ExtCall :=
  match encryptWith env.fheEnv env.provider (amounts.map (fun a => ("add64", a))) with
  | (none, calls) => ("Encryption failed", calls)
  | (some enc, calls) =>
    match env.writeContract with
    | none => ("Contract info or signer not available", calls)
    | some _ =>
      let args := [TxParam.str tokenAddress, TxParam.strList recipients,
        TxParam.strList (enc.handles.map toHex), TxParam.str (toHex enc.inputProof)]
      let calls2 := calls ++ [ExtCall.submit "batchSendTokenDifferentAmounts" args]
      match env.submitOutcome "batchSendTokenDifferentAmounts" args with
      | Except.error emsg => ("Batch transfer failed: " ++ emsg, calls2)
      | Except.ok tx =>
        let calls3 := calls2 ++ [ExtCall.waitConfirm 2]
        match env.waitOutcome tx with
        | Except.error emsg => ("Batch transfer failed: " ++ emsg, calls3)
        | Except.ok receipt =>
          ("✅ Confirmed! Sent different amounts to " ++ toString recipients.length ++
           " recipients.\n\nTransaction: " ++ receipt.hash ++ "\nBlock: " ++
           toString receipt.blockNumber ++ "\nConfirmations: 2+\nExplorer: " ++
           explorerUrl env.chainId tx.hash, calls3)

/-- Embedding of batchSendTokenDifferentAmounts (eBatcher hook lines
180-239): entry guard, shape validation (non-empty lists, equal lengths,
batch size bound), then the try/finally body. -/
def batchSendTokenDifferentAmounts (env : BatcherEnv) (st : BatcherState)
    (tokenAddress : String) (recipients : List String) (amounts : List Nat) :
    BatcherState × List ExtCall :=
  if st.isProcessing || !(env.canInteract st.isProcessing) then (st, [])
  else if recipients.length = 0 || amounts.length = 0 then
    ({ st with message := "At least one recipient and amount is required" }, [])
  else if recipients.length ≠ amounts.length then
    ({ st with message := "Recipients and amounts arrays must have the same length" }, [])
  else if recipients.length > env.maxBatchSize then
    ({ st with message := "Maximum batch size is " ++ toString env.maxBatchSize }, [])
  else
    let r := differentAmountsTry env tokenAddress recipients amounts
    ({ message := r.1, isProcessing := false }, r.2)

/-- The well-known all-zero ciphertext handle (32 zero bytes). -/
def zeroHandle : String :=
  "0x0000000000000000000000000000000000000000000000000000000000000000"

/-- Environment of useTokenBalance7984: readiness flags plus the behaviour of
the external reads (address validation, getCode, the confidentialBalanceOf /
decimals / symbol reads; the two metadata reads fall back to defaults when
they reject, modelled by none). -/
structure BalanceEnv where
  fhevmInstance : Option Unit
  ethersSigner : Option String
  readonlyProvider : Option Unit
  validAddress : String → Bool
  codeAt : String → String
  balanceResult : String → String → Except String String
  decimalsResult : Option Nat
  symbolResult : Option String

/-- canInteract of useTokenBalance7984: instance and signer present, not
busy. -/
def BalanceEnv.canInteract (env : BalanceEnv) (isProcessing : Bool) : Bool :=
  env.fhevmInstance.isSome && env.ethersSigner.isSome && !isProcessing

/-- Observable state of useTokenBalance7984. -/
structure BalanceState where
  message : String
  isProcessing : Bool
  balanceTokenAddress : String
  balanceHandle : Option String
  decryptedBalance : Option String
  tokenDecimals : Option Nat
  tokenSymbol : Option String
deriving DecidableEq, Repr

/-- The try block of getTokenBalance (useTokenBalance7984.tsx lines 83-168):
validate the address and provider, check contract code, read the handle and
metadata, then either short-circuit the zero handle to cleartext "0" or
store the handle for an explicit later decryption. -/
def getTokenBalanceTry (env : BalanceEnv) (tokenAddress userAddress : String)
    (st1 : BalanceState) : BalanceState × List ExtCall :=
  if !(env.validAddress tokenAddress) then
    ({ st1 with message := "Invalid token address format" }, [])
  else
    match env.readonlyProvider with
    | none => ({ st1 with message := "Provider not available" }, [])
    | some _ =>
      if env.codeAt tokenAddress = "0x" then
        ({ st1 with message :=
            "No contract found at this address. Make sure it\x27s a valid ERC-7984 token contract." },
         [ExtCall.getCode tokenAddress])
      else
        match env.balanceResult tokenAddress userAddress with
        | Except.error e =>
          ({ st1 with message := "Failed to get balance: " ++ e },
           [ExtCall.getCode tokenAddress, ExtCall.readBalance tokenAddress userAddress])
        | Except.ok handleHex =>
          let decimals := env.decimalsResult.getD 18
          let symbol := env.symbolResult.getD "TOKEN"
          let st2 := { st1 with tokenDecimals := some decimals, tokenSymbol := some symbol }
          if handleHex = zeroHandle then
            ({ st2 with
                message := "✅ Balance: 0" ++ (if symbol = "" then "" else " " ++ symbol) ++
                  "\n\nThis balance is zero or uninitialized.",
                balanceHandle := some handleHex,
                decryptedBalance := some "0" },
             [ExtCall.getCode tokenAddress, ExtCall.readBalance tokenAddress userAddress])
          else
            ({ st2 with
                message := "Got encrypted balance handle. Click \x27Decrypt Balance\x27 to reveal the amount.",
                balanceHandle := some handleHex },
             [ExtCall.getCode tokenAddress, ExtCall.readBalance tokenAddress userAddress])

/-- Embedding of getTokenBalance (useTokenBalance7984.tsx lines 71-171):
entry guard, state reset, then the try/finally body; finally clears the busy
flag. -/
def getTokenBalance (env : BalanceEnv) (st : BalanceState)
    (tokenAddress userAddress : String) : BalanceState × List ExtCall :=
  if st.isProcessing || !(env.canInteract st.isProcessing) then (st, [])
  else
    let st1 := { st with
      message := "Fetching encrypted balance..."
      balanceTokenAddress := tokenAddress
      balanceHandle := none
      decryptedBalance := none
      tokenDecimals := none
      tokenSymbol := none }
    let r := getTokenBalanceTry env tokenAddress userAddress st1
    ({ r.1 with isProcessing := false }, r.2)

/-- Embedding of decryptBalance (useTokenBalance7984.tsx lines 176-191): a
zero stored handle resolves to cleartext "0" with no coordinator call;
otherwise, when the coordinator reports readiness, exactly one decrypt is
triggered. `canDecrypt` is the readiness flag computed by useFHEDecrypt
(whose source is outside this repository slice). -/
def decryptBalance (st : BalanceState) (canDecrypt : Bool) :
    BalanceState × List ExtCall :=
  if st.balanceHandle = some zeroHandle then
    ({ st with message := "Balance is zero (0). No decryption needed.",
               decryptedBalance := some "0" }, [])
  else if !canDecrypt then
    ({ st with message := "Cannot decrypt: missing handle or FHEVM instance" }, [])
  else
    ({ st with message := "Starting decryption..." }, [ExtCall.decryptTrigger])

/-- Result of instance.publicDecrypt: per-handle clear values plus the ABI
encoded clear values and the decryption proof. -/
structure DecryptionOutput where
  clearValues : String → Option Nat
  abiEncodedClearValues : List Nat
  decryptionProof : List Nat

/-- Environment of useEWETHWagmi. -/
structure EwethEnv where
  fhevmInstance : Option Unit
  ethersSigner : Option String
  readonlyProvider : Option Unit
  contractAddress : String
  contractAddressValid : Bool
  publicDecryptResult : List String → Except String DecryptionOutput
  submitOutcome : String → List TxParam → Except String Tx
  waitOutcome : Tx → Except String Receipt

/-- getContract("write") of useEWETHWagmi: requires a valid contract address
and the signer. -/
def EwethEnv.writeContract (env : EwethEnv) : Option String :=
  if env.contractAddress ≠ "" ∧ env.contractAddressValid then
    match env.ethersSigner with
    | some _ => some env.contractAddress
    | none => none
  else none

/-- Observable state of useEWETHWagmi. -/
structure EwethState where
  message : String
  isProcessing : Bool
  isDecrypting : Bool
  balanceHandle : Option String
  decryptedBalance : Option String
  pendingWithdrawalHandle : Option String
deriving DecidableEq, Repr

/-- The try block of completeWithdrawal (useEWETHWagmi.tsx lines 224-260):
one public decryption round trip for the pending handle, the falsiness check
on the clear value (a missing value or a 0n value both throw), then the
finalize call and its confirmation wait. -/
def completeWithdrawalTry (env : EwethEnv) (handle : String) (st : EwethState) :
    EwethState × List ExtCall :=
  match env.publicDecryptResult [handle] with
  | Except.error e =>
    ({ st with message := "❌ Failed to complete withdrawal: " ++ e },
     [ExtCall.publicDecrypt [handle]])
  | Except.ok d =>
    match d.clearValues handle with
    | none =>
      ({ st with message := "❌ Failed to complete withdrawal: No cleartext value found for handle "
          ++ handle }, [ExtCall.publicDecrypt [handle]])
    | some v =>
      if v = 0 then
        ({ st with message := "❌ Failed to complete withdrawal: No cleartext value found for handle "
            ++ handle }, [ExtCall.publicDecrypt [handle]])
      else
        let args := [TxParam.str handle, TxParam.bytesVal d.abiEncodedClearValues,
          TxParam.bytesVal d.decryptionProof]
        match env.submitOutcome "completeWithdrawal" args with
        | Except.error e =>
          ({ st with message := "❌ Failed to complete withdrawal: " ++ e },
           [ExtCall.publicDecrypt [handle], ExtCall.submit "completeWithdrawal" args])
        | Except.ok tx =>
          match env.waitOutcome tx with
          | Except.error e =>
            ({ st with message := "❌ Failed to complete withdrawal: " ++ e },
             [ExtCall.publicDecrypt [handle], ExtCall.submit "completeWithdrawal" args,
              ExtCall.waitConfirm 1])
          | Except.ok receipt =>
            ({ st with
                message := "✅ Withdrawal complete!\nETH transferred to your wallet.\nBlock: "
                  ++ toString receipt.blockNumber,
                pendingWithdrawalHandle := none,
                balanceHandle := none,
                decryptedBalance := none },
             [ExtCall.publicDecrypt [handle], ExtCall.submit "completeWithdrawal" args,
              ExtCall.waitConfirm 1])

/-- Embedding of completeWithdrawal (useEWETHWagmi.tsx lines 203-265): the
no-pending-handle, no-instance and no-contract guards run before any busy
flag is touched and before any external call; the accepted path sets and
(in finally) clears both busy flags. Note there is no isProcessing entry
guard. -/
def completeWithdrawal (env : EwethEnv) (st : EwethState) :
    EwethState × List ExtCall :=
  match st.pendingWithdrawalHandle with
  | none => ({ st with message := "❌ No pending withdrawal" }, [])
  | some handle =>
    match env.fhevmInstance with
    | none => ({ st with message := "❌ Cannot decrypt: FHEVM instance not available" }, [])
    | some _ =>
      match env.writeContract with
      | none => ({ st with message := "❌ Contract not available" }, [])
      | some _ =>
        let r := completeWithdrawalTry env handle st
        ({ r.1 with isProcessing := false, isDecrypting := false }, r.2)

/-- A plausible eBatcher7984 ABI fragment: the two batch functions, each
ending in an externalEuint64-marked bytes32 slot (scalar or array) and a
bytes inputProof slot. -/
def abiBatcher : List AbiItem :=
  [ { ty := "function", name := "batchSendTokenSameAmount",
      inputs :=
        [ { name := "token", ty := "address", internalType := some "address" },
          { name := "recipients", ty := "address[]", internalType := some "address[]" },
          { name := "amountPerRecipient", ty := "bytes32", internalType := some "externalEuint64" },
          { name := "inputProof", ty := "bytes", internalType := some "bytes" } ] },
    { ty := "function", name := "batchSendTokenDifferentAmounts",
      inputs :=
        [ { name := "token", ty := "address", internalType := some "address" },
          { name := "recipients", ty := "address[]", internalType := some "address[]" },
          { name := "amounts", ty := "bytes32[]", internalType := some "externalEuint64[]" },
          { name := "inputProof", ty := "bytes", internalType := some "bytes" } ] } ]

/-- A deterministic stand-in encryption provider: one single-byte handle per
queued entry and a fixed proof blob. -/
def providerEx : String → String → List (String × Nat) → EncryptResult :=
  fun _ _ ops => { handles := ops.map (fun p => [p.2 % 256]), inputProof := [7] }

/-- A fully ready eBatcher environment used to instantiate theorems. -/
def envBatcherEx : BatcherEnv :=
  { fhevmInstance := some ()
    ethersSigner := some "0xaccount"
    readonlyProvider := some ()
    contractInfo := some ("0xbatcher", abiBatcher)
    maxBatchSizeData := some 10
    provider := providerEx
    submitOutcome := fun _ _ => Except.ok { hash := "0xtxhash" }
    waitOutcome := fun _ => Except.ok { hash := "0xtxhash", blockNumber := 42 }
    chainId := some 11155111 }

/-- Idle eBatcher hook state. -/
def stBatcherIdle : BatcherState := { message := "", isProcessing := false }

/-- Busy eBatcher hook state. -/
def stBatcherBusy : BatcherState := { message := "prior", isProcessing := true }

/-- The function fragment of the worked example in the spec: fn(token,
recipient, externalEuint64 amount, bytes inputProof). -/
def abiTransferEx : List AbiItem :=
  [ { ty := "function", name := "transferConfidential",
      inputs :=
        [ { name := "token", ty := "address", internalType := some "address" },
          { name := "recipient", ty := "address", internalType := some "address" },
          { name := "amount", ty := "bytes32", internalType := some "externalEuint64" },
          { name := "inputProof", ty := "bytes", internalType := some "bytes" } ] } ]

/-- A one-handle encryption result for the worked example. -/
def encTransferEx : EncryptResult := { handles := [[170]], inputProof := [187] }

/-- An ABI whose single encrypted slot is declared uint256: the BigInt
re-encoding of a multi-byte handle fails at runtime. -/
def abiUint256Ex : List AbiItem :=
  [ { ty := "function", name := "wrapAmount",
      inputs :=
        [ { name := "amount", ty := "uint256", internalType := some "externalEuint64" },
          { name := "inputProof", ty := "bytes", internalType := some "bytes" } ] } ]

/-- A two-byte handle: its JS string coercion is "1,2", which BigInt cannot
parse. -/
def encUint256Ex : EncryptResult := { handles := [[1, 2]], inputProof := [3] }

/-- An encryption result with one more handle than the single encrypted slot
of abiTransferEx consumes. -/
def encSurplusEx : EncryptResult := { handles := [[1], [2]], inputProof := [9] }

/-- A ready balance-hook environment whose token read returns the zero
handle. -/
def envBalZero : BalanceEnv :=
  { fhevmInstance := some ()
    ethersSigner := some "0xaccount"
    readonlyProvider := some ()
    validAddress := fun a => a = "0xtoken"
    codeAt := fun _ => "0x6001"
    balanceResult := fun _ _ => Except.ok zeroHandle
    decimalsResult := some 6
    symbolResult := some "eUSD" }

/-- The same balance-hook environment with a nonzero handle read. -/
def envBalNonzero : BalanceEnv :=
  { envBalZero with balanceResult := fun _ _ => Except.ok "0xabcd" }

/-- Initial balance-hook state. -/
def stBalIdle : BalanceState :=
  { message := "", isProcessing := false, balanceTokenAddress := "",
    balanceHandle := none, decryptedBalance := none, tokenDecimals := none,
    tokenSymbol := none }

/-- A ready eWETH environment whose public decryption resolves the pending
handle to 5 wei. -/
def envEwethEx : EwethEnv :=
  { fhevmInstance := some ()
    ethersSigner := some "0xaccount"
    readonlyProvider := some ()
    contractAddress := "0xeweth"
    contractAddressValid := true
    publicDecryptResult := fun _ =>
      Except.ok { clearValues := fun h => if h = "0xhandle" then some 5 else none,
                  abiEncodedClearValues := [5], decryptionProof := [1] }
    submitOutcome := fun _ _ => Except.ok { hash := "0xtxhash" }
    waitOutcome := fun _ => Except.ok { hash := "0xtxhash", blockNumber := 43 } }

/-- eWETH state with no pending phase-1 handle. -/
def stEwethNoPending : EwethState :=
  { message := "", isProcessing := false, isDecrypting := false,
    balanceHandle := none, decryptedBalance := none,
    pendingWithdrawalHandle := none }

/-- eWETH state that is busy with another operation while a phase-1 handle
is pending. -/
def stEwethBusy : EwethState :=
  { message := "prior", isProcessing := true, isDecrypting := false,
    balanceHandle := none, decryptedBalance := none,
    pendingWithdrawalHandle := some "0xhandle" }

/-- An encryption hook environment with no FHEVM instance. -/
def fheEnvMissing : FHEEnv :=
  { fhevmInstance := none, ethersSigner := some "0xaccount",
    contractAddress := some "0xbatcher" }

/-- An ABI with one function declaring zero parameters. -/
def abiEmptyInputs : List AbiItem :=
  [ { ty := "function", name := "emptyFn", inputs := [] } ]

/-- The reference assembly always has one entry per declared parameter. -/
theorem assembleSpec_length (handles : List (List Nat)) (inputProof : List Nat)
    (additionalParams : List TxParam) :
    ∀ (inputs : List AbiInput) (encIdx addIdx : Nat),
      (assembleSpec handles inputProof additionalParams inputs encIdx addIdx).length
        = inputs.length := by
  intro inputs
  induction inputs with
  | nil => intro encIdx addIdx; rfl
  | cons inp rest ih =>
    intro encIdx addIdx
    by_cases he : isEncryptedInput inp
    · simp [assembleSpec, he, ih]
    · by_cases hp : isInputProofInput inp
      · simp [assembleSpec, he, hp, ih]
      · simp [assembleSpec, he, hp, ih]

/-- Outside the uint256 branch, an encrypted slot always encodes as the hex
byte reference of its handle. -/
theorem encodeEncryptedParam_of_ne_uint256 (ty : String) (raw : List Nat)
    (h : ty ≠ "uint256") :
    encodeEncryptedParam ty raw = some (TxParam.str (toHex raw)) := by
  unfold encodeEncryptedParam
  by_cases h1 : ty = "bytes32" ∨ ty = "bytes"
  · simp [h1]
  · simp [h1, h]

/-- When the handles suffice for every encrypted slot, the extra plaintext
values suffice for every plain slot, and no encrypted slot is declared
uint256, the loop succeeds and produces exactly the reference assembly. -/
theorem buildParamsLoop_ok (enc : EncryptResult) (functionName : String)
    (additionalParams : List TxParam) :
    ∀ (inputs : List AbiInput) (encIdx addIdx : Nat),
      encIdx + countEncrypted inputs ≤ enc.handles.length →
      addIdx + countPlainSlots inputs ≤ additionalParams.length →
      (∀ inp ∈ inputs, isEncryptedInput inp = true → inp.ty ≠ "uint256") →
      buildParamsLoop enc functionName additionalParams inputs encIdx addIdx =
        Except.ok (assembleSpec enc.handles enc.inputProof additionalParams inputs encIdx addIdx) := by
  intro inputs
  induction inputs with
  | nil => intro encIdx addIdx _ _ _; rfl
  | cons inp rest ih =>
    intro encIdx addIdx h1 h2 h3
    by_cases he : isEncryptedInput inp
    · have hcount : countEncrypted (inp :: rest) = countEncrypted rest + 1 := by
        simp [countEncrypted, List.countP_cons, he]
      have hplain : countPlainSlots (inp :: rest) = countPlainSlots rest := by
        simp [countPlainSlots, List.countP_cons, he]
      have hlt : encIdx < enc.handles.length := by omega
      have hget : enc.handles[encIdx]? = some enc.handles[encIdx] :=
        List.getElem?_eq_getElem hlt
      have hgetD : enc.handles.getD encIdx [] = enc.handles[encIdx] := by
        simp [List.getD_eq_getElem?_getD, hget]
      have hty := h3 inp (List.mem_cons_self _ _) he
      have hrec := ih (encIdx + 1) addIdx (by omega) (by rw [hplain] at h2; omega)
        (fun i hi hien => h3 i (List.mem_cons_of_mem _ hi) hien)
      simp [buildParamsLoop, he, hget, encodeEncryptedParam_of_ne_uint256 inp.ty _ hty,
        hrec, assembleSpec, hgetD, Except.map]
    · by_cases hp : isInputProofInput inp
      · have hcount : countEncrypted (inp :: rest) = countEncrypted rest := by
          simp [countEncrypted, List.countP_cons, he]
        have hplain : countPlainSlots (inp :: rest) = countPlainSlots rest := by
          simp [countPlainSlots, List.countP_cons, he, hp]
        have hrec := ih encIdx addIdx (by omega) (by rw [hplain] at h2; omega)
          (fun i hi hien => h3 i (List.mem_cons_of_mem _ hi) hien)
        simp [buildParamsLoop, he, hp, hrec, assembleSpec, Except.map]
      · have hcount : countEncrypted (inp :: rest) = countEncrypted rest := by
          simp [countEncrypted, List.countP_cons, he]
        have hplain : countPlainSlots (inp :: rest) = countPlainSlots rest + 1 := by
          simp [countPlainSlots, List.countP_cons, he, hp]
        have hlt : addIdx < additionalParams.length := by omega
        have hget : additionalParams[addIdx]? = some additionalParams[addIdx] :=
          List.getElem?_eq_getElem hlt
        have hgetD : additionalParams.getD addIdx (TxParam.str "") = additionalParams[addIdx] := by
          simp [List.getD_eq_getElem?_getD, hget]
        have hrec := ih encIdx (addIdx + 1) (by omega) (by omega)
          (fun i hi hien => h3 i (List.mem_cons_of_mem _ hi) hien)
        simp [buildParamsLoop, he, hp, hget, hrec, assembleSpec, hgetD, Except.map]

/-- Processing a well-matched block of parameters leaves the loop running on
the remaining parameters with both cursors advanced by the counts of the
block. -/
theorem buildParamsLoop_append (enc : EncryptResult) (functionName : String)
    (additionalParams : List TxParam) :
    ∀ (pre suffix : List AbiInput) (encIdx addIdx : Nat),
      encIdx + countEncrypted pre ≤ enc.handles.length →
      addIdx + countPlainSlots pre ≤ additionalParams.length →
      (∀ inp ∈ pre, isEncryptedInput inp = true → inp.ty ≠ "uint256") →
      buildParamsLoop enc functionName additionalParams (pre ++ suffix) encIdx addIdx =
        (buildParamsLoop enc functionName additionalParams suffix
          (encIdx + countEncrypted pre) (addIdx + countPlainSlots pre)).map
          (fun l =>
            assembleSpec enc.handles enc.inputProof additionalParams pre encIdx addIdx ++ l) := by
  intro pre
  induction pre with
  | nil =>
    intro suffix encIdx addIdx _ _ _
    cases hres : buildParamsLoop enc functionName additionalParams suffix encIdx addIdx <;>
      simp [countEncrypted, countPlainSlots, assembleSpec, hres, Except.map]
  | cons inp rest ih =>
    intro suffix encIdx addIdx h1 h2 h3
    by_cases he : isEncryptedInput inp
    · have hcount : countEncrypted (inp :: rest) = countEncrypted rest + 1 := by
        simp [countEncrypted, List.countP_cons, he]
      have hplain : countPlainSlots (inp :: rest) = countPlainSlots rest := by
        simp [countPlainSlots, List.countP_cons, he]
      have hlt : encIdx < enc.handles.length := by omega
      have hget : enc.handles[encIdx]? = some enc.handles[encIdx] :=
        List.getElem?_eq_getElem hlt
      have hgetD : enc.handles.getD encIdx [] = enc.handles[encIdx] := by
        simp [List.getD_eq_getElem?_getD, hget]
      have hty := h3 inp (List.mem_cons_self _ _) he
      have hrec := ih suffix (encIdx + 1) addIdx (by omega) (by rw [hplain] at h2; omega)
        (fun i hi hien => h3 i (List.mem_cons_of_mem _ hi) hien)
      rw [hcount, hplain]
      have hidx : encIdx + (countEncrypted rest + 1) = encIdx + 1 + countEncrypted rest := by
        omega
      rw [hidx]
      cases hres : buildParamsLoop enc functionName additionalParams suffix
          (encIdx + 1 + countEncrypted rest) (addIdx + countPlainSlots rest) <;>
        · rw [hres] at hrec
          simp [List.cons_append, buildParamsLoop, he, hget,
            encodeEncryptedParam_of_ne_uint256 inp.ty _ hty, hrec, Except.map,
            assembleSpec, hgetD]
    · by_cases hp : isInputProofInput inp
      · have hcount : countEncrypted (inp :: rest) = countEncrypted rest := by
          simp [countEncrypted, List.countP_cons, he]
        have hplain : countPlainSlots (inp :: rest) = countPlainSlots rest := by
          simp [countPlainSlots, List.countP_cons, he, hp]
        have hrec := ih suffix encIdx addIdx (by omega) (by rw [hplain] at h2; omega)
          (fun i hi hien => h3 i (List.mem_cons_of_mem _ hi) hien)
        rw [hcount, hplain]
        cases hres : buildParamsLoop enc functionName additionalParams suffix
            (encIdx + countEncrypted rest) (addIdx + countPlainSlots rest) <;>
          · rw [hres] at hrec
            simp [List.cons_append, buildParamsLoop, he, hp, hrec, Except.map, assembleSpec]
      · have hcount : countEncrypted (inp :: rest) = countEncrypted rest := by
          simp [countEncrypted, List.countP_cons, he]
        have hplain : countPlainSlots (inp :: rest) = countPlainSlots rest + 1 := by
          simp [countPlainSlots, List.countP_cons, he, hp]
        have hlt : addIdx < additionalParams.length := by omega
        have hget : additionalParams[addIdx]? = some additionalParams[addIdx] :=
          List.getElem?_eq_getElem hlt
        have hgetD : additionalParams.getD addIdx (TxParam.str "") = additionalParams[addIdx] := by
          simp [List.getD_eq_getElem?_getD, hget]
        have hrec := ih suffix encIdx (addIdx + 1) (by omega) (by omega)
          (fun i hi hien => h3 i (List.mem_cons_of_mem _ hi) hien)
        rw [hcount, hplain]
        have hidx : addIdx + (countPlainSlots rest + 1) = addIdx + 1 + countPlainSlots rest := by
          omega
        rw [hidx]
        cases hres : buildParamsLoop enc functionName additionalParams suffix
            (encIdx + countEncrypted rest) (addIdx + 1 + countPlainSlots rest) <;>
          · rw [hres] at hrec
            simp [List.cons_append, buildParamsLoop, he, hp, hget, hrec, Except.map,
              assembleSpec, hgetD]

/-- C10: the kind-to-builder-method mapping is total: each of the eight
recognized external encrypted markers maps to its builder method, and every
other string falls through to "add64", so an unrecognized marker is silently
encrypted as uint64. -/
theorem c10_encryption_method_total :
    getEncryptionMethod "externalEbool" = "addBool" ∧
    getEncryptionMethod "externalEuint8" = "add8" ∧
    getEncryptionMethod "externalEuint16" = "add16" ∧
    getEncryptionMethod "externalEuint32" = "add32" ∧
    getEncryptionMethod "externalEuint64" = "add64" ∧
    getEncryptionMethod "externalEuint128" = "add128" ∧
    getEncryptionMethod "externalEuint256" = "add256" ∧
    getEncryptionMethod "externalEaddress" = "addAddress" ∧
    ∀ s : String,
      s ∉ (["externalEbool", "externalEuint8", "externalEuint16", "externalEuint32",
        "externalEuint64", "externalEuint128", "externalEuint256",
        "externalEaddress"] : List String) →
      getEncryptionMethod s = "add64" := by
  refine ⟨rfl, rfl, rfl, rfl, rfl, rfl, rfl, rfl, ?_⟩
  intro s hs
  simp only [List.mem_cons, List.not_mem_nil, or_false] at hs
  push_neg at hs
  obtain ⟨h1, h2, h3, h4, h5, h6, h7, h8⟩ := hs
  simp [getEncryptionMethod, h1, h2, h3, h4, h5, h6, h7, h8]

/-- Witness for C10: a misspelled marker falls through to "add64". -/
theorem c10_witness :
    ("externalEuint42" : String) ∉ (["externalEbool", "externalEuint8",
      "externalEuint16", "externalEuint32", "externalEuint64", "externalEuint128",
      "externalEuint256", "externalEaddress"] : List String) ∧
    getEncryptionMethod "externalEuint42" = "add64" :=
  ⟨by decide, c10_encryption_method_total.2.2.2.2.2.2.2.2 "externalEuint42" (by decide)⟩

/-- C4: when the provider instance, the signer, or the target contract
address is missing, encryptWith returns no batch and performs no provider
work at all: no session is created and nothing is queued. -/
theorem c4_encrypt_unavailable (env : FHEEnv)
    (provider : String → String → List (String × Nat) → EncryptResult)
    (buildOps : List (String × Nat))
    (h : env.fhevmInstance = none ∨ env.ethersSigner = none ∨
      env.contractAddress = none) :
    encryptWith env provider buildOps = (none, []) := by
  rcases hI : env.fhevmInstance with _ | i <;>
    rcases hS : env.ethersSigner with _ | s <;>
      rcases hC : env.contractAddress with _ | c <;>
        simp_all [encryptWith]

/-- Witness for C4: an environment missing only the instance yields no batch
and an empty provider trace. -/
theorem c4_witness : encryptWith fheEnvMissing providerEx [("add64", 5)] = (none, []) :=
  c4_encrypt_unavailable fheEnvMissing providerEx [("add64", 5)] (Or.inl rfl)

/-- C9: classification fails when the named function is absent from the ABI
(and so does the assembler), and fails when the function is present with
zero declared parameters; in both cases no builder method is produced. -/
theorem c9_classification_errors :
    (∀ (abi : List AbiItem) (functionName : String),
      (∀ item ∈ abi, ¬(item.ty = "function" ∧ item.name = functionName)) →
      getEncryptionMethodForFunction abi functionName =
        (none, some ("Function ABI not found for " ++ functionName))) ∧
    (∀ (abi : List AbiItem) (functionName : String) (fn : AbiItem),
      abi.find? (fun item => item.ty == "function" && item.name == functionName) = some fn →
      fn.inputs = [] →
      getEncryptionMethodForFunction abi functionName =
        (none, some ("No inputs found for " ++ functionName))) ∧
    (∀ (enc : EncryptResult) (abi : List AbiItem) (functionName : String)
      (additionalParams : List TxParam),
      (∀ item ∈ abi, ¬(item.ty = "function" ∧ item.name = functionName)) →
      buildParamsFromAbi enc abi functionName additionalParams =
        Except.error (BuildError.functionAbiNotFound functionName)) := by
  refine ⟨?_, ?_, ?_⟩
  · intro abi functionName h
    have hfind : abi.find?
        (fun item => item.ty == "function" && item.name == functionName) = none := by
      rw [List.find?_eq_none]
      intro item hitem
      have := h item hitem
      simp only [Bool.and_eq_true, beq_iff_eq]
      tauto
    simp [getEncryptionMethodForFunction, hfind]
  · intro abi functionName fn hfind hinputs
    have hty : fn.ty = "function" := by
      have := List.find?_some hfind
      simp only [Bool.and_eq_true, beq_iff_eq] at this
      exact this.1
    simp [getEncryptionMethodForFunction, hfind, hty, hinputs]
  · intro enc abi functionName additionalParams h
    have hfind : abi.find?
        (fun item => item.ty == "function" && item.name == functionName) = none := by
      rw [List.find?_eq_none]
      intro item hitem
      have := h item hitem
      simp only [Bool.and_eq_true, beq_iff_eq]
      tauto
    simp [buildParamsFromAbi, hfind]

/-- Witness for C9: a name absent from the example ABI is rejected, and so
is the zero-parameter function. -/
theorem c9_witness :
    getEncryptionMethodForFunction abiBatcher "noSuchFn" =
      (none, some ("Function ABI not found for " ++ "noSuchFn")) ∧
    getEncryptionMethodForFunction abiEmptyInputs "emptyFn" =
      (none, some ("No inputs found for " ++ "emptyFn")) ∧
    buildParamsFromAbi encTransferEx abiBatcher "noSuchFn" [] =
      Except.error (BuildError.functionAbiNotFound "noSuchFn") :=
  ⟨c9_classification_errors.1 abiBatcher "noSuchFn" (by decide),
   c9_classification_errors.2.1 abiEmptyInputs "emptyFn"
     { ty := "function", name := "emptyFn", inputs := [] } (by decide) rfl,
   c9_classification_errors.2.2 encTransferEx abiBatcher "noSuchFn" [] (by decide)⟩

/-- C1 counterexample: a function fragment whose single encrypted-marked
parameter is declared uint256, with exactly one proof parameter and exactly
enough handles, makes buildParamsFromAbi fail (the BigInt re-encoding of the
two-byte handle throws) instead of returning an argument list, so the claim
as stated does not hold for every ABI fragment. -/
theorem c1_counterexample :
    (∀ fn ∈ abiUint256Ex, countEncrypted fn.inputs = 1 ∧
      countProofSlots fn.inputs = 1 ∧ countPlainSlots fn.inputs = 0) ∧
    encUint256Ex.handles.length = 1 ∧
    buildParamsFromAbi encUint256Ex abiUint256Ex "wrapAmount" [] =
      Except.error BuildError.typeError := by
  refine ⟨by decide, by decide, ?_⟩
  rfl

/-- C1 (amended): for a function fragment with k encrypted-marked parameters
and exactly one proof parameter, given at least k handles and enough extra
plaintext values, and provided no encrypted slot is declared uint256 (that
encoding path throws on byte-array handles), buildParamsFromAbi returns the
argument list of the declared length whose encrypted slots receive the
handles in declaration order, whose proof slot receives the single proof,
and whose plain slots receive the extra values in order — exactly the
reference assembly assembleSpec. -/
theorem c1_assembler_amended (enc : EncryptResult) (abi : List AbiItem)
    (functionName : String) (additionalParams : List TxParam) (fn : AbiItem) (k : Nat)
    (hfind : abi.find? (fun item => item.ty == "function" && item.name == functionName)
      = some fn)
    (hk : countEncrypted fn.inputs = k)
    (_hproof : countProofSlots fn.inputs = 1)
    (hhandles : k ≤ enc.handles.length)
    (hplain : countPlainSlots fn.inputs ≤ additionalParams.length)
    (hty : ∀ inp ∈ fn.inputs, isEncryptedInput inp = true → inp.ty ≠ "uint256") :
    buildParamsFromAbi enc abi functionName additionalParams =
      Except.ok (assembleSpec enc.handles enc.inputProof additionalParams fn.inputs 0 0) ∧
    (assembleSpec enc.handles enc.inputProof additionalParams fn.inputs 0 0).length
      = fn.inputs.length := by
  constructor
  · simp only [buildParamsFromAbi, hfind]
    exact buildParamsLoop_ok enc functionName additionalParams fn.inputs 0 0
      (by omega) (by omega) hty
  · exact assembleSpec_length _ _ _ _ _ _

/-- Witness for the amended C1, on the worked example of the spec: fn(token,
recipient, externalEuint64 amount, bytes inputProof) with one handle. -/
theorem c1_witness :
    buildParamsFromAbi encTransferEx abiTransferEx "transferConfidential"
        [TxParam.str "0xtoken", TxParam.str "0xrecipient"] =
      Except.ok [TxParam.str "0xtoken", TxParam.str "0xrecipient",
        TxParam.str "0xaa", TxParam.str "0xbb"] := by
  have h := c1_assembler_amended encTransferEx abiTransferEx "transferConfidential"
    [TxParam.str "0xtoken", TxParam.str "0xrecipient"]
    { ty := "function", name := "transferConfidential",
      inputs :=
        [ { name := "token", ty := "address", internalType := some "address" },
          { name := "recipient", ty := "address", internalType := some "address" },
          { name := "amount", ty := "bytes32", internalType := some "externalEuint64" },
          { name := "inputProof", ty := "bytes", internalType := some "bytes" } ] }
    1 (by decide) (by decide) (by decide) (by decide) (by decide) (by decide)
  rw [h.1]
  rfl

/-- C3 counterexample: with two handles and a single encrypted slot (plus
the proof slot and satisfied plain slots), one handle is left unused yet
buildParamsFromAbi returns an argument list instead of failing with a
mismatch error, so the claim as stated does not hold. -/
theorem c3_counterexample :
    encSurplusEx.handles.length = 2 ∧
    (∀ fn ∈ abiTransferEx, countEncrypted fn.inputs = 1) ∧
    buildParamsFromAbi encSurplusEx abiTransferEx "transferConfidential"
        [TxParam.str "0xtoken", TxParam.str "0xrecipient"] =
      Except.ok [TxParam.str "0xtoken", TxParam.str "0xrecipient",
        TxParam.str "0x01", TxParam.str "0x09"] := by
  refine ⟨by decide, by decide, ?_⟩
  rfl

/-- C3 (amended): the assembler checks only the extra-plaintext cursor.
Surplus handles are silently ignored and an argument list is returned;
extra plaintext values exhausted before all plain slots are filled produce
the error naming the first unmatched parameter; handles exhausted before
all encrypted slots are filled produce a low-level type error that names no
parameter. -/
theorem c3_amended :
    (∀ (enc : EncryptResult) (abi : List AbiItem) (functionName : String)
        (additionalParams : List TxParam) (fn : AbiItem),
      abi.find? (fun item => item.ty == "function" && item.name == functionName)
        = some fn →
      countEncrypted fn.inputs < enc.handles.length →
      countPlainSlots fn.inputs ≤ additionalParams.length →
      (∀ inp ∈ fn.inputs, isEncryptedInput inp = true → inp.ty ≠ "uint256") →
      ∃ args, buildParamsFromAbi enc abi functionName additionalParams
        = Except.ok args) ∧
    (∀ (enc : EncryptResult) (abi : List AbiItem) (functionName : String)
        (additionalParams : List TxParam) (fn : AbiItem) (pre : List AbiInput)
        (p : AbiInput) (rest : List AbiInput),
      abi.find? (fun item => item.ty == "function" && item.name == functionName)
        = some fn →
      fn.inputs = pre ++ p :: rest →
      isEncryptedInput p = false →
      isInputProofInput p = false →
      countPlainSlots pre = additionalParams.length →
      countEncrypted pre ≤ enc.handles.length →
      (∀ inp ∈ pre, isEncryptedInput inp = true → inp.ty ≠ "uint256") →
      buildParamsFromAbi enc abi functionName additionalParams =
        Except.error (BuildError.missingParameter p.name p.ty functionName
          additionalParams.length)) ∧
    (∀ (enc : EncryptResult) (abi : List AbiItem) (functionName : String)
        (additionalParams : List TxParam) (fn : AbiItem) (pre : List AbiInput)
        (q : AbiInput) (rest : List AbiInput),
      abi.find? (fun item => item.ty == "function" && item.name == functionName)
        = some fn →
      fn.inputs = pre ++ q :: rest →
      isEncryptedInput q = true →
      countEncrypted pre = enc.handles.length →
      countPlainSlots pre ≤ additionalParams.length →
      (∀ inp ∈ pre, isEncryptedInput inp = true → inp.ty ≠ "uint256") →
      buildParamsFromAbi enc abi functionName additionalParams =
        Except.error BuildError.typeError) := by
  refine ⟨?_, ?_, ?_⟩
  · intro enc abi functionName additionalParams fn hfind hh hp hty
    refine ⟨assembleSpec enc.handles enc.inputProof additionalParams fn.inputs 0 0, ?_⟩
    simp only [buildParamsFromAbi, hfind]
    exact buildParamsLoop_ok enc functionName additionalParams fn.inputs 0 0
      (by omega) (by omega) hty
  · intro enc abi functionName additionalParams fn pre p rest hfind hinputs hpe hpp
      hcp hce hty
    simp only [buildParamsFromAbi, hfind, hinputs]
    rw [buildParamsLoop_append enc functionName additionalParams pre (p :: rest) 0 0
      (by omega) (by omega) hty]
    have hnone : additionalParams[additionalParams.length]? = none := by
      simp
    have hstep : buildParamsLoop enc functionName additionalParams (p :: rest)
        (0 + countEncrypted pre) (0 + countPlainSlots pre) =
        Except.error (BuildError.missingParameter p.name p.ty functionName
          additionalParams.length) := by
      simp only [buildParamsLoop, hpe, hpp, Nat.zero_add, hcp, hnone]
      simp [hpe, hpp]
    rw [hstep]
    rfl
  · intro enc abi functionName additionalParams fn pre q rest hfind hinputs hqe
      hce hcp hty
    simp only [buildParamsFromAbi, hfind, hinputs]
    rw [buildParamsLoop_append enc functionName additionalParams pre (q :: rest) 0 0
      (by omega) (by omega) hty]
    have hnone : enc.handles[enc.handles.length]? = none := by
      simp
    have hstep : buildParamsLoop enc functionName additionalParams (q :: rest)
        (0 + countEncrypted pre) (0 + countPlainSlots pre) =
        Except.error BuildError.typeError := by
      simp only [buildParamsLoop, hqe, Nat.zero_add, hce, hnone, if_true]
    rw [hstep]
    rfl

/-- Witness for the amended C3: calling the assembler on the worked example
with no extra plaintext values fails naming the first plain parameter. -/
theorem c3_amended_witness :
    buildParamsFromAbi encTransferEx abiTransferEx "transferConfidential" [] =
      Except.error (BuildError.missingParameter "token" "address"
        "transferConfidential" 0) := by
  have h := c3_amended.2.1 encTransferEx abiTransferEx "transferConfidential" []
    { ty := "function", name := "transferConfidential",
      inputs :=
        [ { name := "token", ty := "address", internalType := some "address" },
          { name := "recipient", ty := "address", internalType := some "address" },
          { name := "amount", ty := "bytes32", internalType := some "externalEuint64" },
          { name := "inputProof", ty := "bytes", internalType := some "bytes" } ] }
    []
    { name := "token", ty := "address", internalType := some "address" }
    [ { name := "recipient", ty := "address", internalType := some "address" },
      { name := "amount", ty := "bytes32", internalType := some "externalEuint64" },
      { name := "inputProof", ty := "bytes", internalType := some "bytes" } ]
    (by decide) rfl (by decide) (by decide) (by decide) (by decide) (by decide)
  exact h

/-- C8: invoking the phase-2 finalize with no persisted phase-1 handle fails
immediately with the no-pending-operation status, mutates nothing else, and
performs no network call and no decryption round trip (empty trace). -/
theorem c8_no_pending_withdrawal (env : EwethEnv) (st : EwethState)
    (h : st.pendingWithdrawalHandle = none) :
    completeWithdrawal env st =
      ({ st with message := "❌ No pending withdrawal" }, []) := by
  simp [completeWithdrawal, h]

/-- Witness for C8 at a concrete ready environment with no pending handle. -/
theorem c8_witness :
    completeWithdrawal envEwethEx stEwethNoPending =
      ({ stEwethNoPending with message := "❌ No pending withdrawal" }, []) :=
  c8_no_pending_withdrawal envEwethEx stEwethNoPending rfl

/-- C5: a balance read that returns the all-zero handle reports cleartext 0
immediately with no decryption-coordinator call, both at fetch time and when
a decrypt is later requested on the stored zero handle; any other handle is
stored with its decryption left to the explicit follow-up call, which then
triggers exactly one coordinator call. -/
theorem c5_zero_handle_short_circuit :
    (∀ (env : BalanceEnv) (st : BalanceState) (tokenAddress userAddress : String),
      st.isProcessing = false →
      env.fhevmInstance = some () →
      env.ethersSigner.isSome = true →
      env.validAddress tokenAddress = true →
      env.readonlyProvider = some () →
      env.codeAt tokenAddress ≠ "0x" →
      env.balanceResult tokenAddress userAddress = Except.ok zeroHandle →
      (getTokenBalance env st tokenAddress userAddress).1.decryptedBalance = some "0" ∧
      (getTokenBalance env st tokenAddress userAddress).1.balanceHandle = some zeroHandle ∧
      ((getTokenBalance env st tokenAddress userAddress).2.all
        (fun c => !c.isDecryptionCall)) = true) ∧
    (∀ (st : BalanceState) (canDecrypt : Bool),
      st.balanceHandle = some zeroHandle →
      decryptBalance st canDecrypt =
        ({ st with message := "Balance is zero (0). No decryption needed.",
                   decryptedBalance := some "0" }, [])) ∧
    (∀ (env : BalanceEnv) (st : BalanceState) (tokenAddress userAddress handleHex : String),
      st.isProcessing = false →
      env.fhevmInstance = some () →
      env.ethersSigner.isSome = true →
      env.validAddress tokenAddress = true →
      env.readonlyProvider = some () →
      env.codeAt tokenAddress ≠ "0x" →
      env.balanceResult tokenAddress userAddress = Except.ok handleHex →
      handleHex ≠ zeroHandle →
      (getTokenBalance env st tokenAddress userAddress).1.balanceHandle = some handleHex ∧
      (getTokenBalance env st tokenAddress userAddress).1.decryptedBalance = none ∧
      ((getTokenBalance env st tokenAddress userAddress).2.all
        (fun c => !c.isDecryptionCall)) = true) ∧
    (∀ (st : BalanceState),
      st.balanceHandle ≠ some zeroHandle →
      decryptBalance st true =
        ({ st with message := "Starting decryption..." }, [ExtCall.decryptTrigger])) := by
  refine ⟨?_, ?_, ?_, ?_⟩
  · intro env st tokenAddress userAddress hbusy hinst hsigner hvalid hprov hcode hbal
    have hsig : env.ethersSigner.isSome = true := hsigner
    simp [getTokenBalance, getTokenBalanceTry, BalanceEnv.canInteract, hbusy, hinst,
      hsig, hvalid, hprov, hcode, hbal, ExtCall.isDecryptionCall]
  · intro st canDecrypt h
    simp [decryptBalance, h]
  · intro env st tokenAddress userAddress handleHex hbusy hinst hsigner hvalid hprov
      hcode hbal hnz
    simp [getTokenBalance, getTokenBalanceTry, BalanceEnv.canInteract, hbusy, hinst,
      hsigner, hvalid, hprov, hcode, hbal, hnz, ExtCall.isDecryptionCall]
  · intro st h
    simp [decryptBalance, h]

/-- Witness for C5: the zero-handle fetch, the zero-handle decrypt request,
and the nonzero-handle fetch, on concrete environments. -/
theorem c5_witness :
    (getTokenBalance envBalZero stBalIdle "0xtoken" "0xaccount").1.decryptedBalance
      = some "0" ∧
    (decryptBalance { stBalIdle with balanceHandle := some zeroHandle } true).2 = [] ∧
    (getTokenBalance envBalNonzero stBalIdle "0xtoken" "0xaccount").1.balanceHandle
      = some "0xabcd" := by
  refine ⟨?_, ?_, ?_⟩
  · exact (c5_zero_handle_short_circuit.1 envBalZero stBalIdle "0xtoken" "0xaccount"
      rfl rfl rfl (by decide) rfl (by decide) rfl).1
  · rw [c5_zero_handle_short_circuit.2.1
      { stBalIdle with balanceHandle := some zeroHandle } true rfl]
  · exact (c5_zero_handle_short_circuit.2.2.1 envBalNonzero stBalIdle "0xtoken"
      "0xaccount" "0xabcd" rfl rfl rfl (by decide) rfl (by decide) rfl (by decide)).1

/-- C6: a batched-transfer invocation with an empty recipient list, a
per-recipient amounts list of mismatched length, or more recipients than
maxBatchSize performs no external call at all (no encryption, no network
call, no submission); maxBatchSize falls back to the fixed default 10 when
the contract read is unavailable. -/
theorem c6_shape_validation :
    (∀ (env : BatcherEnv) (st : BatcherState) (tokenAddress : String)
        (recipients : List String) (amount : Nat),
      recipients.length = 0 ∨ recipients.length > env.maxBatchSize →
      (batchSendTokenSameAmount env st tokenAddress recipients amount).2 = []) ∧
    (∀ (env : BatcherEnv) (st : BatcherState) (tokenAddress : String)
        (recipients : List String) (amounts : List Nat),
      recipients.length = 0 ∨ recipients.length ≠ amounts.length ∨
        recipients.length > env.maxBatchSize →
      (batchSendTokenDifferentAmounts env st tokenAddress recipients amounts).2 = []) ∧
    (∀ env : BatcherEnv, env.maxBatchSizeData = none → env.maxBatchSize = 10) := by
  refine ⟨?_, ?_, ?_⟩
  · intro env st tokenAddress recipients amount h
    by_cases hguard : (st.isProcessing || !(env.canInteract st.isProcessing)) = true
    · simp [batchSendTokenSameAmount, hguard]
    · rcases h with h | h
      · simp [batchSendTokenSameAmount, hguard, h]
      · have hne : ¬(recipients.length = 0) := by omega
        simp [batchSendTokenSameAmount, hguard, hne, h]
  · intro env st tokenAddress recipients amounts h
    by_cases hguard : (st.isProcessing || !(env.canInteract st.isProcessing)) = true
    · simp [batchSendTokenDifferentAmounts, hguard]
    · by_cases h0 : recipients.length = 0
      · simp [batchSendTokenDifferentAmounts, hguard, h0]
      · by_cases ha0 : amounts.length = 0
        · simp [batchSendTokenDifferentAmounts, hguard, h0, ha0]
        · rcases h with h | h | h
          · exact absurd h h0
          · simp [batchSendTokenDifferentAmounts, hguard, h0, ha0, h]
          · by_cases hlen : recipients.length ≠ amounts.length
            · simp [batchSendTokenDifferentAmounts, hguard, h0, ha0, hlen]
            · simp [batchSendTokenDifferentAmounts, hguard, h0, ha0, hlen, h]
  · intro env h
    simp [BatcherEnv.maxBatchSize, h]

/-- Witness for C6: eleven recipients exceed the batch size of 10 and the
call performs no external work. -/
theorem c6_witness :
    (batchSendTokenSameAmount envBatcherEx stBatcherIdle "0xtoken"
      (List.replicate 11 "0xr") 5).2 = [] :=
  c6_shape_validation.1 envBatcherEx stBatcherIdle "0xtoken"
    (List.replicate 11 "0xr") 5 (Or.inr (by decide))

/-- Queue events are never session creations. -/
theorem countP_queue_map_isCreateSession (amounts : List Nat) :
    (amounts.map (fun a => ExtCall.queue "add64" a)).countP ExtCall.isCreateSession
      = 0 := by
  rw [List.countP_eq_zero]
  intro c hc
  obtain ⟨a, _, rfl⟩ := List.mem_map.mp hc
  simp [ExtCall.isCreateSession]

/-- Queue events are never batch resolutions. -/
theorem countP_queue_map_isResolve (amounts : List Nat) :
    (amounts.map (fun a => ExtCall.queue "add64" a)).countP ExtCall.isResolve = 0 := by
  rw [List.countP_eq_zero]
  intro c hc
  obtain ⟨a, _, rfl⟩ := List.mem_map.mp hc
  simp [ExtCall.isResolve]

/-- C7 counterexample: completeWithdrawal has no busy entry guard, so an
invocation arriving while the busy flag is set is not rejected: it performs
external calls (a decryption round trip, a submission and a wait) and
mutates the state, so the claim does not hold for every workflow
operation. -/
theorem c7_counterexample :
    stEwethBusy.isProcessing = true ∧
    (completeWithdrawal envEwethEx stEwethBusy).2 =
      [ExtCall.publicDecrypt ["0xhandle"],
       ExtCall.submit "completeWithdrawal"
         [TxParam.str "0xhandle", TxParam.bytesVal [5], TxParam.bytesVal [1]],
       ExtCall.waitConfirm 1] ∧
    (completeWithdrawal envEwethEx stEwethBusy).1.message ≠ stEwethBusy.message := by
  refine ⟨rfl, rfl, ?_⟩
  have h : (completeWithdrawal envEwethEx stEwethBusy).1.message =
      "✅ Withdrawal complete!\nETH transferred to your wallet.\nBlock: 43" := rfl
  rw [h]
  decide

/-- C7 (amended): the batch-transfer operations reject an invocation that
arrives while busy, returning the state unchanged with no external call,
and clear the busy flag back to false on every exit path of an accepted
invocation; the accepted paths of completeWithdrawal also clear both busy
flags, but completeWithdrawal lacks the busy entry guard. -/
theorem c7_amended :
    (∀ (env : BatcherEnv) (st : BatcherState) (tokenAddress : String)
        (recipients : List String) (amount : Nat),
      st.isProcessing = true →
      batchSendTokenSameAmount env st tokenAddress recipients amount = (st, [])) ∧
    (∀ (env : BatcherEnv) (st : BatcherState) (tokenAddress : String)
        (recipients : List String) (amounts : List Nat),
      st.isProcessing = true →
      batchSendTokenDifferentAmounts env st tokenAddress recipients amounts
        = (st, [])) ∧
    (∀ (env : BatcherEnv) (st : BatcherState) (tokenAddress : String)
        (recipients : List String) (amount : Nat),
      st.isProcessing = false →
      (batchSendTokenSameAmount env st tokenAddress recipients amount).1.isProcessing
        = false) ∧
    (∀ (env : BatcherEnv) (st : BatcherState) (tokenAddress : String)
        (recipients : List String) (amounts : List Nat),
      st.isProcessing = false →
      (batchSendTokenDifferentAmounts env st tokenAddress
        recipients amounts).1.isProcessing = false) ∧
    (∀ (env : EwethEnv) (st : EwethState) (handle : String),
      st.pendingWithdrawalHandle = some handle →
      env.fhevmInstance = some () →
      env.writeContract.isSome = true →
      (completeWithdrawal env st).1.isProcessing = false ∧
      (completeWithdrawal env st).1.isDecrypting = false) := by
  refine ⟨?_, ?_, ?_, ?_, ?_⟩
  · intro env st tokenAddress recipients amount h
    simp [batchSendTokenSameAmount, h]
  · intro env st tokenAddress recipients amounts h
    simp [batchSendTokenDifferentAmounts, h]
  · intro env st tokenAddress recipients amount h
    unfold batchSendTokenSameAmount
    split
    · simp [h]
    · split
      · simp [h]
      · split
        · simp [h]
        · rfl
  · intro env st tokenAddress recipients amounts h
    unfold batchSendTokenDifferentAmounts
    split
    · simp [h]
    · split
      · simp [h]
      · split
        · simp [h]
        · split
          · simp [h]
          · rfl
  · intro env st handle hpend hinst hwc
    obtain ⟨w, hw⟩ := Option.isSome_iff_exists.mp hwc
    simp [completeWithdrawal, hpend, hinst, hw]

/-- Witness for the amended C7: a busy batch call is rejected unchanged, and
an accepted completeWithdrawal ends with the busy flag cleared. -/
theorem c7_amended_witness :
    batchSendTokenSameAmount envBatcherEx stBatcherBusy "0xtoken" ["0xr1"] 5
      = (stBatcherBusy, []) ∧
    (completeWithdrawal envEwethEx stEwethBusy).1.isProcessing = false :=
  ⟨c7_amended.1 envBatcherEx stBatcherBusy "0xtoken" ["0xr1"] 5 rfl,
   (c7_amended.2.2.2.2 envEwethEx stEwethBusy "0xhandle" rfl rfl (by decide)).1⟩

/-- C2: with valid shape and context, batchSendTokenDifferentAmounts queues
all n amounts with add64 into one encryption session, resolves exactly once,
and submits the array-typed call carrying the batch handles (hex encoded)
together with the single shared proof; the trace contains exactly one
session creation and one resolution. -/
theorem c2_single_session_batch (env : BatcherEnv) (st : BatcherState)
    (tokenAddress : String) (recipients : List String) (amounts : List Nat)
    (addr : String) (abi : List AbiItem) (user : String) (tx : Tx) (receipt : Receipt)
    (hinfo : env.contractInfo = some (addr, abi))
    (hinst : env.fhevmInstance = some ())
    (hsigner : env.ethersSigner = some user)
    (hbusy : st.isProcessing = false)
    (hne : recipients.length ≠ 0)
    (hlen : amounts.length = recipients.length)
    (hmax : recipients.length ≤ env.maxBatchSize)
    (hsubmit : env.submitOutcome "batchSendTokenDifferentAmounts"
        [TxParam.str tokenAddress, TxParam.strList recipients,
         TxParam.strList ((env.provider addr user
           (amounts.map (fun a => ("add64", a)))).handles.map toHex),
         TxParam.str (toHex (env.provider addr user
           (amounts.map (fun a => ("add64", a)))).inputProof)]
      = Except.ok tx)
    (hwait : env.waitOutcome tx = Except.ok receipt) :
    (batchSendTokenDifferentAmounts env st tokenAddress recipients amounts).2 =
      ExtCall.createSession addr user ::
        (amounts.map (fun a => ExtCall.queue "add64" a) ++
         [ExtCall.resolve,
          ExtCall.submit "batchSendTokenDifferentAmounts"
            [TxParam.str tokenAddress, TxParam.strList recipients,
             TxParam.strList ((env.provider addr user
               (amounts.map (fun a => ("add64", a)))).handles.map toHex),
             TxParam.str (toHex (env.provider addr user
               (amounts.map (fun a => ("add64", a)))).inputProof)],
          ExtCall.waitConfirm 2]) ∧
    ((batchSendTokenDifferentAmounts env st tokenAddress
        recipients amounts).2.countP ExtCall.isCreateSession) = 1 ∧
    ((batchSendTokenDifferentAmounts env st tokenAddress
        recipients amounts).2.countP ExtCall.isResolve) = 1 := by
  have hguard : (st.isProcessing || !(env.canInteract st.isProcessing)) = false := by
    simp [BatcherEnv.canInteract, BatcherEnv.hasContract, hinfo, hinst, hsigner, hbusy]
  have henc : encryptWith env.fheEnv env.provider
      (amounts.map (fun a => ("add64", a))) =
      (some (env.provider addr user (amounts.map (fun a => ("add64", a)))),
       ExtCall.createSession addr user ::
         ((amounts.map (fun a => ("add64", a))).map
            (fun p => ExtCall.queue p.1 p.2) ++ [ExtCall.resolve])) := by
    simp [encryptWith, BatcherEnv.fheEnv, hinfo, hinst, hsigner]
  have hwc : env.writeContract = some (addr, abi) := by
    simp [BatcherEnv.writeContract, hinfo, hsigner]
  have htrace : (batchSendTokenDifferentAmounts env st tokenAddress
      recipients amounts).2 =
      ExtCall.createSession addr user ::
        (amounts.map (fun a => ExtCall.queue "add64" a) ++
         [ExtCall.resolve,
          ExtCall.submit "batchSendTokenDifferentAmounts"
            [TxParam.str tokenAddress, TxParam.strList recipients,
             TxParam.strList ((env.provider addr user
               (amounts.map (fun a => ("add64", a)))).handles.map toHex),
             TxParam.str (toHex (env.provider addr user
               (amounts.map (fun a => ("add64", a)))).inputProof)],
          ExtCall.waitConfirm 2]) := by
    have h0 : ¬(recipients.length = 0) := hne
    have ha0 : ¬(amounts.length = 0) := by omega
    have hl : ¬(recipients.length ≠ amounts.length) := by omega
    have hm : ¬(recipients.length > env.maxBatchSize) := by omega
    simp only [batchSendTokenDifferentAmounts, hguard, Bool.false_eq_true, if_false,
      h0, ha0, hl, hm, differentAmountsTry, henc, hwc, hsubmit, hwait]
    simp [List.map_map, Function.comp, List.append_assoc]
  refine ⟨htrace, ?_, ?_⟩
  · rw [htrace]
    simp [List.countP_cons, List.countP_append,
      countP_queue_map_isCreateSession, ExtCall.isCreateSession]
  · rw [htrace]
    simp [List.countP_cons, List.countP_append,
      countP_queue_map_isResolve, ExtCall.isResolve]

/-- Witness for C2 at the worked example of the spec: two recipients with
amounts [1000000, 2000000] produce a single-session trace. -/
theorem c2_witness :
    ((batchSendTokenDifferentAmounts envBatcherEx stBatcherIdle "0xtoken"
      ["0xr1", "0xr2"] [1000000, 2000000]).2.countP ExtCall.isCreateSession) = 1 ∧
    ((batchSendTokenDifferentAmounts envBatcherEx stBatcherIdle "0xtoken"
      ["0xr1", "0xr2"] [1000000, 2000000]).2.countP ExtCall.isResolve) = 1 := by
  have h := c2_single_session_batch envBatcherEx stBatcherIdle "0xtoken"
    ["0xr1", "0xr2"] [1000000, 2000000] "0xbatcher" abiBatcher "0xaccount"
    { hash := "0xtxhash" } { hash := "0xtxhash", blockNumber := 42 }
    rfl rfl rfl rfl (by decide) rfl (by decide) rfl rfl
  exact ⟨h.2.1, h.2.2⟩
